import Mathlib

/-!
Verification of the SlopScore repository's mock-analysis and URL-validation
logic, embedded shallowly from the TypeScript source.

* `src/lib/api/mock.ts` — deterministic mock analysis (`generateMockAnalysis`,
  `hashToScore`, `hashToNumber`);
* `src/lib/api/validation.ts` — GitHub URL schema and `parseGithubUrl`;
* `app/api/analyze/route.ts` — the `POST /api/analyze` handler (`processUrl`),
  modelled as a transition on an explicit database state;
* `src/lib/ai/readme-to-features.ts` — README-to-feature extraction via the
  Anthropic API (its deterministic parts).

JavaScript numbers are modelled as `Int`/`Nat`; the `| 0` / `& x` coercions of
the hash use an explicit two's-complement reduction `toInt32`.  JavaScript
strings are sequences of UTF-16 code units; `utf16CodeUnits` converts a Lean
`String` (codepoints) to that view.
-/

namespace SlopScore

/-! ## The string hash of `src/lib/api/mock.ts` -/

/-- Two's-complement reduction to a 32-bit signed integer, the effect of
JavaScript's `ToInt32` (applied by `<<` and by `x & x`). -/
def toInt32 (n : Int) : Int :=
  let m := n % 4294967296
  if m < 2147483648 then m else m - 4294967296

/-- One iteration of the loop of `hashToNumber`:
`hash = (hash << 5) - hash + char; hash = hash & hash;`.
`hash << 5` is `ToInt32 (hash * 32)`; the subtraction and addition are exact
double-precision arithmetic on integers below 2^37; `hash & hash` is
`ToInt32` again. -/
def hashStep (h : Int) (c : Nat) : Int :=
  toInt32 (toInt32 (h * 32) - h + (c : Int))

/-- The UTF-16 code units of a string, as JavaScript's `charCodeAt` exposes
them: codepoints below 2^16 unchanged, others as surrogate pairs. -/
def utf16CodeUnits (s : String) : List Nat :=
  s.data.flatMap fun c =>
    let n := c.toNat
    if n < 65536 then [n]
    else [55296 + (n - 65536) / 1024, 56320 + (n - 65536) % 1024]

/-- `hashToNumber` of `src/lib/api/mock.ts`: fold `hashStep` over the code
units starting from 0, then `Math.abs`. -/
def hashToNumber (s : String) : Nat :=
  ((utf16CodeUnits s).foldl hashStep 0).natAbs

/-- `hashToScore` of `src/lib/api/mock.ts`: `20 + (hash % 71)`.
The hash is a non-negative JavaScript number, so `%` is the ordinary
remainder. -/
def hashToScore (s : String) : Nat :=
  20 + hashToNumber s % 71

/-! ## `generateMockAnalysis` -/

/-- The fixed note pool hard-coded in `generateMockAnalysis`. -/
def allNotes : List String :=
  ["Excessive use of any type",
   "Missing documentation",
   "Inconsistent naming conventions",
   "Large files that should be split",
   "Commented-out code blocks",
   "Magic numbers without constants",
   "Incomplete error handling",
   "Deep nesting in functions"]

/-- The note-selection loop of `generateMockAnalysis`: for `i < count`, look
up `allNotes[(h + i) % allNotes.length]` and push it unless already present.
The index is always `< 8 = allNotes.length`, so the `getD` default is never
used. -/
def noteStep (h : Nat) (acc : List String) (i : Nat) : List String :=
  let note := allNotes.getD ((h + i) % 8) ""
  if note ∈ acc then acc else acc ++ [note]

def buildNotes (h : Nat) (count : Nat) : List String :=
  (List.range count).foldl (noteStep h) []

structure MockAnalysis where
  slopScore : Nat
  notes : List String
  deriving DecidableEq, Repr

/-- `generateMockAnalysis` of `src/lib/api/mock.ts`.  `noteCount`
is `3 + (hashToNumber(repoUrl) % 3)`; the loop recomputes
`hashToNumber(repoUrl)` each iteration, always the same value. -/
def generateMockAnalysis (repoUrl : String) : MockAnalysis :=
  { slopScore := hashToScore repoUrl
    notes := buildNotes (hashToNumber repoUrl) (3 + hashToNumber repoUrl % 3) }

/-! ## Basic facts about the hash -/

theorem toInt32_emod (a : Int) : toInt32 a % 4294967296 = a % 4294967296 := by
  simp only [toInt32]
  split <;> omega

theorem toInt32_congr {a b : Int} (h : a % 4294967296 = b % 4294967296) :
    toInt32 a = toInt32 b := by
  simp only [toInt32, h]

/-- The per-character step equals multiplication by 31 plus the character,
reduced mod 2^32 to a signed 32-bit value. -/
def specHashStep (h : Int) (c : Nat) : Int :=
  toInt32 (31 * h + (c : Int))

theorem hashStep_eq_spec : hashStep = specHashStep := by
  funext h c
  simp only [hashStep, specHashStep]
  apply toInt32_congr
  have h32 := toInt32_emod (h * 32)
  omega

/-- The hash written the way the spec describes it: fold `31*h + c` with
32-bit two's-complement wraparound over the UTF-16 code units, then take the
absolute value. -/
def specHashAbs (s : String) : Nat :=
  ((utf16CodeUnits s).foldl specHashStep 0).natAbs

/-! ## Claims about score range and determinism -/

/-- C1: for every input URL string, the slop score returned by
`generateMockAnalysis` is a number in the range 0 to 100 inclusive. -/
theorem generateMockAnalysis_score_in_0_100 (url : String) :
    0 ≤ (generateMockAnalysis url).slopScore ∧
      (generateMockAnalysis url).slopScore ≤ 100 := by
  have h : hashToNumber url % 71 < 71 := Nat.mod_lt _ (by omega)
  simp only [generateMockAnalysis, hashToScore]
  omega

/-- C8: for every input URL string, the slop score lies in the narrower
range 20 to 90 inclusive. -/
theorem generateMockAnalysis_score_in_20_90 (url : String) :
    20 ≤ (generateMockAnalysis url).slopScore ∧
      (generateMockAnalysis url).slopScore ≤ 90 := by
  have h : hashToNumber url % 71 < 71 := Nat.mod_lt _ (by omega)
  simp only [generateMockAnalysis, hashToScore]
  omega

/-- C2: `generateMockAnalysis` is deterministic: two invocations on equal URL
strings return equal slop scores and equal notes lists (same elements, same
order).  The source has no nondeterminism (no randomness, clock or I/O), so it
embeds as a pure function and determinism is congruence. -/
theorem generateMockAnalysis_deterministic (u₁ u₂ : String) (h : u₁ = u₂) :
    (generateMockAnalysis u₁).slopScore = (generateMockAnalysis u₂).slopScore ∧
      (generateMockAnalysis u₁).notes = (generateMockAnalysis u₂).notes := by
  subst h; exact ⟨rfl, rfl⟩

theorem generateMockAnalysis_deterministic_witness :
    (generateMockAnalysis "https://github.com/a/b").slopScore =
        (generateMockAnalysis "https://github.com/a/b").slopScore ∧
      (generateMockAnalysis "https://github.com/a/b").notes =
        (generateMockAnalysis "https://github.com/a/b").notes :=
  generateMockAnalysis_deterministic _ _ rfl

/-- C4: the score is computed solely by the string hash of the URL:
`slopScore url = 20 + (|h url| % 71)` where `h` folds each UTF-16 code unit
`c` by `hash := 31*hash + c` with 32-bit two's-complement wraparound and
`|·|` is the absolute value. -/
theorem slopScore_eq_hash_formula (url : String) :
    (generateMockAnalysis url).slopScore = 20 + specHashAbs url % 71 := by
  simp only [generateMockAnalysis, hashToScore, hashToNumber, specHashAbs,
    hashStep_eq_spec]

end SlopScore

namespace SlopScore

/-! ## Claims about the notes list -/

theorem noteStep_mem_allNotes (h : Nat) (acc : List String) (i : Nat)
    (hacc : ∀ y ∈ acc, y ∈ allNotes) :
    ∀ x ∈ noteStep h acc i, x ∈ allNotes := by
  intro x hx
  simp only [noteStep] at hx
  have hlt : (h + i) % 8 < allNotes.length := by
    simp only [allNotes, List.length]
    exact Nat.mod_lt _ (by omega)
  have hmem : allNotes.getD ((h + i) % 8) "" ∈ allNotes := by
    rw [List.getD_eq_getElem _ _ hlt]
    exact List.getElem_mem hlt
  split at hx
  · exact hacc x hx
  · rcases List.mem_append.mp hx with h1 | h1
    · exact hacc x h1
    · rcases List.mem_singleton.mp h1 with rfl
      exact hmem

theorem foldl_noteStep_mem_allNotes (h : Nat) (l : List Nat) :
    ∀ acc, (∀ y ∈ acc, y ∈ allNotes) →
      ∀ x ∈ l.foldl (noteStep h) acc, x ∈ allNotes := by
  induction l with
  | nil => intro acc hacc x hx; exact hacc x hx
  | cons i l ih =>
    intro acc hacc x hx
    exact ih (noteStep h acc i) (noteStep_mem_allNotes h acc i hacc) x hx

/-- C5: every note returned by `generateMockAnalysis` is an element of the
fixed eight-string pool hard-coded in the function; the selection depends on
the URL alone (the function's only input), never on repository contents. -/
theorem generateMockAnalysis_notes_from_pool (url : String) (note : String)
    (h : note ∈ (generateMockAnalysis url).notes) : note ∈ allNotes := by
  simp only [generateMockAnalysis, buildNotes] at h
  exact foldl_noteStep_mem_allNotes _ _ [] (by simp) note h

set_option maxRecDepth 100000 in
theorem generateMockAnalysis_notes_from_pool_witness :
    "Incomplete error handling" ∈ allNotes :=
  generateMockAnalysis_notes_from_pool "https://github.com/a/b"
    "Incomplete error handling" (by decide)

theorem noteStep_mod8 (h : Nat) : noteStep h = noteStep (h % 8) := by
  funext acc i
  simp only [noteStep, Nat.mod_add_mod]

theorem buildNotes_mod8 (h count : Nat) :
    buildNotes h count = buildNotes (h % 8) count := by
  simp only [buildNotes, noteStep_mod8 h]

set_option maxRecDepth 4000 in
theorem buildNotes_len_nodup (r : Nat) (hr : r < 24) :
    (buildNotes (r % 8) (3 + r % 3)).length = 3 + r % 3 ∧
      (buildNotes (r % 8) (3 + r % 3)).Nodup := by
  revert hr
  revert r
  decide

/-- C9: for every input URL string, the notes list returned by
`generateMockAnalysis` has between 3 and 5 entries inclusive, its length is
exactly `noteCount = 3 + hash % 3`, and its entries are pairwise distinct
(the duplicate-skipping branch never drops the count below `noteCount`). -/
theorem generateMockAnalysis_notes_count_nodup (url : String) :
    3 ≤ (generateMockAnalysis url).notes.length ∧
      (generateMockAnalysis url).notes.length ≤ 5 ∧
      (generateMockAnalysis url).notes.length = 3 + hashToNumber url % 3 ∧
      (generateMockAnalysis url).notes.Nodup := by
  simp only [generateMockAnalysis]
  set h := hashToNumber url with hh
  have e3 : h % 3 = (h % 24) % 3 := (Nat.mod_mod_of_dvd h (by norm_num)).symm
  have e8 : h % 8 = (h % 24) % 8 := (Nat.mod_mod_of_dvd h (by norm_num)).symm
  have key := buildNotes_len_nodup (h % 24) (Nat.mod_lt _ (by omega))
  rw [buildNotes_mod8, e8, e3]
  refine ⟨by omega, ?_, key.1, key.2⟩
  have : (h % 24) % 3 < 3 := Nat.mod_lt _ (by omega)
  omega

end SlopScore

namespace SlopScore

/-!
## URL validation (`src/lib/api/validation.ts`)

`githubUrlSchema` is `z.string().url().refine(url => pattern.test(url))` with
`pattern = /^https:\/\/github\.com\/([^/]+)\/([^/]+)\/?$/`.  Strings are
modelled as their character lists.  Zod's `.url()` check (a `new URL(...)`
try/catch inside the zod library, not code of this repository) is kept
abstract as a boolean parameter `urlOk`; the schema accepts exactly when both
the `urlOk` check and the regex test pass.
-/

def dropPrefixChars : List Char → List Char → Option (List Char)
  | [], cs => some cs
  | _ :: _, [] => none
  | p :: ps, c :: cs => if c = p then dropPrefixChars ps cs else none

/-- Split a character list on `'/'`, like the regex alternation over
`[^/]` segments: `splitSegs "a/b/".data = [['a'], ['b'], []]`. -/
def splitSegs : List Char → List (List Char)
  | [] => [[]]
  | c :: cs =>
    if c = '/' then [] :: splitSegs cs
    else
      match splitSegs cs with
      | [] => [[c]]
      | s :: ss => (c :: s) :: ss

def githubPrefix : List Char := "https://github.com/".data

/-- The regex `/^https:\/\/github\.com\/([^/]+)\/([^/]+)\/?$/` as a capture
function: the two groups when the whole string matches, `none` otherwise. -/
def githubPatternCapture (cs : List Char) : Option (List Char × List Char) :=
  match dropPrefixChars githubPrefix cs with
  | none => none
  | some rest =>
    match splitSegs rest with
    | [o, n] => if o ≠ [] ∧ n ≠ [] then some (o, n) else none
    | [o, n, []] => if o ≠ [] ∧ n ≠ [] then some (o, n) else none
    | _ => none

/-- `pattern.test(url)` of the `refine` step. -/
def githubPatternTest (s : String) : Bool :=
  (githubPatternCapture s.data).isSome

/-- `githubUrlSchema.safeParse(url).success`: zod's `.url()` check (abstract
`urlOk`) and the GitHub-pattern refinement must both pass. -/
def githubUrlSchemaAccepts (urlOk : String → Bool) (s : String) : Bool :=
  urlOk s && githubPatternTest s

inductive ParseErr where
  /-- `parsed.error.issues[0].message` — the schema rejected the string. -/
  | invalidSchema
  /-- `'Failed to extract owner and name from GitHub URL'`. -/
  | extractFail
  deriving DecidableEq, Repr

/-- `match[2].replace(/\/$/, '')`: drop one trailing slash. -/
def stripTrailingSlash (n : List Char) : List Char :=
  match n.reverse with
  | '/' :: rest => rest.reverse
  | _ => n

/-- `parseGithubUrl` of `src/lib/api/validation.ts`: re-validate with the
schema (throwing its first issue on failure), re-match the same regex
(throwing the extraction error on failure), and return the two captures. -/
def parseGithubUrl (urlOk : String → Bool) (url : String) :
    Except ParseErr (String × String) :=
  if githubUrlSchemaAccepts urlOk url = true then
    match githubPatternCapture url.data with
    | some (o, n) => .ok (String.mk o, String.mk (stripTrailingSlash n))
    | none => .error .extractFail
  else .error .invalidSchema

/-- C10: `parseGithubUrl` never reaches its second failure branch: the
`extractFail` error is unreachable, and the function succeeds exactly on the
strings `githubUrlSchema` accepts (for any behaviour `urlOk` of zod's
`.url()` check). -/
theorem parseGithubUrl_extract_error_unreachable (urlOk : String → Bool)
    (url : String) :
    parseGithubUrl urlOk url ≠ .error .extractFail ∧
      ((∃ p, parseGithubUrl urlOk url = .ok p) ↔
        githubUrlSchemaAccepts urlOk url = true) := by
  cases hacc : githubUrlSchemaAccepts urlOk url with
  | false => simp [parseGithubUrl, hacc]
  | true =>
    have htest : githubPatternTest url = true :=
      ((Bool.and_eq_true _ _).mp hacc).2
    obtain ⟨p, hp⟩ := Option.isSome_iff_exists.mp htest
    obtain ⟨o, n⟩ := p
    simp [parseGithubUrl, hacc, hp]

end SlopScore

namespace SlopScore

/-! ## What the schema accepts -/

theorem splitSegs_ne_nil (cs : List Char) : splitSegs cs ≠ [] := by
  induction cs with
  | nil => simp [splitSegs]
  | cons c cs ih =>
    simp only [splitSegs]
    split
    · simp
    · cases h : splitSegs cs <;> simp

/-- Rejoin the segments with `'/'`; inverse of `splitSegs`. -/
def joinSegs : List (List Char) → List Char
  | [] => []
  | [s] => s
  | s :: ss => s ++ '/' :: joinSegs ss

theorem splitSegs_join (cs : List Char) : joinSegs (splitSegs cs) = cs := by
  induction cs with
  | nil => rfl
  | cons c cs ih =>
    simp only [splitSegs]
    split
    · rename_i hc
      cases h : splitSegs cs with
      | nil => exact absurd h (splitSegs_ne_nil cs)
      | cons s ss =>
        rw [h] at ih
        simp [joinSegs, ih, hc]
    · cases h : splitSegs cs with
      | nil => exact absurd h (splitSegs_ne_nil cs)
      | cons s ss =>
        rw [h] at ih
        cases ss with
        | nil => simp [joinSegs] at ih ⊢; exact ih
        | cons s' ss' => simp [joinSegs] at ih ⊢; simp [ih]

theorem splitSegs_no_slash (cs : List Char) : ∀ s ∈ splitSegs cs, '/' ∉ s := by
  induction cs with
  | nil => intro s hs; simp [splitSegs] at hs; simp [hs]
  | cons c cs ih =>
    intro s hs
    simp only [splitSegs] at hs
    split at hs
    · rcases List.mem_cons.mp hs with rfl | hmem
      · simp
      · exact ih s hmem
    · rename_i hc
      cases h : splitSegs cs with
      | nil => exact absurd h (splitSegs_ne_nil cs)
      | cons t ts =>
        rw [h] at hs
        rcases List.mem_cons.mp hs with rfl | hmem
        · intro hmem2
          rcases List.mem_cons.mp hmem2 with h1 | h1
          · exact hc h1.symm
          · exact ih t (h ▸ List.mem_cons_self t ts) h1
        · exact ih s (h ▸ List.mem_cons_of_mem t hmem)

theorem dropPrefixChars_eq :
    ∀ (p cs rest : List Char), dropPrefixChars p cs = some rest →
      cs = p ++ rest := by
  intro p
  induction p with
  | nil =>
    intro cs rest h
    simp only [dropPrefixChars, Option.some.injEq] at h
    simp [h]
  | cons a p ih =>
    intro cs rest h
    cases cs with
    | nil => simp [dropPrefixChars] at h
    | cons c cs =>
      simp only [dropPrefixChars] at h
      split at h
      · rename_i hca
        simp [hca, ih cs rest h]
      · simp at h

/-- C6(amended): the schema behind `POST /api/analyze` accepts only GitHub
repository URLs of the shape `https://github.com/{owner}/{repo}` with
non-empty slash-free `owner` and `repo` and an optional trailing slash —
whatever zod's `.url()` check does.  URLs of other public code hosts are
rejected. -/
theorem schemaAccepts_only_github_urls (urlOk : String → Bool) (s : String)
    (h : githubUrlSchemaAccepts urlOk s = true) :
    ∃ owner repoName : List Char,
      owner ≠ [] ∧ repoName ≠ [] ∧ '/' ∉ owner ∧ '/' ∉ repoName ∧
      (s.data = githubPrefix ++ owner ++ '/' :: repoName ∨
        s.data = githubPrefix ++ owner ++ '/' :: repoName ++ ['/']) := by
  have htest : githubPatternTest s = true := ((Bool.and_eq_true _ _).mp h).2
  obtain ⟨⟨o, n⟩, hp⟩ := Option.isSome_iff_exists.mp htest
  simp only [githubPatternCapture] at hp
  split at hp
  · simp at hp
  · rename_i rest hdp
    have hjoin := splitSegs_join rest
    have hns := splitSegs_no_slash rest
    have heq := dropPrefixChars_eq _ _ _ hdp
    split at hp
    · rename_i o1 n1 hss
      rw [hss] at hjoin hns
      split at hp
      · rename_i hnonnil
        simp only [Option.some.injEq, Prod.mk.injEq] at hp
        obtain ⟨rfl, rfl⟩ := hp
        refine ⟨_, _, hnonnil.1, hnonnil.2, ?_, ?_, Or.inl ?_⟩
        · exact hns _ (by simp)
        · exact hns _ (by simp)
        · rw [heq, ← hjoin]; simp [joinSegs]
      · simp at hp
    · rename_i o1 n1 hss
      rw [hss] at hjoin hns
      split at hp
      · rename_i hnonnil
        simp only [Option.some.injEq, Prod.mk.injEq] at hp
        obtain ⟨rfl, rfl⟩ := hp
        refine ⟨_, _, hnonnil.1, hnonnil.2, ?_, ?_, Or.inr ?_⟩
        · exact hns _ (by simp)
        · exact hns _ (by simp)
        · rw [heq, ← hjoin]; simp [joinSegs]
      · simp at hp
    · simp at hp

theorem schemaAccepts_only_github_urls_witness :
    ∃ owner repoName : List Char,
      owner ≠ [] ∧ repoName ≠ [] ∧ '/' ∉ owner ∧ '/' ∉ repoName ∧
      (("https://github.com/a/b" : String).data =
          githubPrefix ++ owner ++ '/' :: repoName ∨
        ("https://github.com/a/b" : String).data =
          githubPrefix ++ owner ++ '/' :: repoName ++ ['/']) :=
  schemaAccepts_only_github_urls (fun _ => true) "https://github.com/a/b"
    (by decide)

/-- C6 counterexample: a public code-hosting repository URL that is not on
`github.com` is rejected by the schema (hence by `POST /api/analyze`), even
under the most permissive behaviour of zod's `.url()` check. -/
theorem gitlab_url_rejected :
    githubUrlSchemaAccepts (fun _ => true)
        "https://gitlab.com/gitlab-org/gitlab" = false ∧
      parseGithubUrl (fun _ => true) "https://gitlab.com/gitlab-org/gitlab" =
        .error .invalidSchema := by
  exact ⟨rfl, rfl⟩

end SlopScore

namespace SlopScore

/-!
## The `POST /api/analyze` handler (`app/api/analyze/route.ts`)

`processUrl` runs one transaction per URL: upsert the repository row (keyed
by its unique `githubUrl`), insert a job row, insert an analysis row from
`generateMockAnalysis`, insert the slop-note rows, and return the job id.
The database is an explicit state; the serial `nextId` stands for the
generated row ids.
-/

structure RepoRow where
  id : Nat
  userId : String
  githubUrl : String
  owner : String
  name : String
  deriving DecidableEq, Repr

structure JobRow where
  id : Nat
  userId : String
  repositoryId : Nat
  status : String
  progress : Nat
  deriving DecidableEq, Repr

structure AnalysisRow where
  id : Nat
  jobId : Nat
  repositoryId : Nat
  slopScore : String
  deriving DecidableEq, Repr

structure SlopNoteRow where
  analysisId : Nat
  note : String
  deriving DecidableEq, Repr

structure DBState where
  nextId : Nat
  repositories : List RepoRow
  jobs : List JobRow
  analyses : List AnalysisRow
  slopNotes : List SlopNoteRow
  deriving DecidableEq, Repr

def emptyDB : DBState := ⟨0, [], [], [], []⟩

/-- `INSERT ... ON CONFLICT (github_url) DO UPDATE SET user_id, owner, name`,
conflict case: update the row with the matching unique `githubUrl`. -/
def upsertExisting (st : DBState) (url userId owner name : String) : DBState :=
  { st with repositories := st.repositories.map fun q =>
      if q.githubUrl == url then
        { q with userId := userId, owner := owner, name := name }
      else q }

/-- The insert case of the repository upsert: a fresh row id. -/
def insertRepo (st : DBState) (url userId owner name : String) : DBState :=
  { st with
    nextId := st.nextId + 1
    repositories := st.repositories ++ [⟨st.nextId, userId, url, owner, name⟩] }

/-- After the repository upsert: insert the job with `status: 'completed'`
and `progress: 100`, generate the mock analysis, insert the analysis row
(score stored as a string, `mockData.slopScore.toString()`), insert one
slop-note row per note, and return the new state with the job id. -/
def finishUrl (st₁ : DBState) (url userId : String) (repoId : Nat) :
    DBState × Nat :=
  let job : JobRow := ⟨st₁.nextId, userId, repoId, "completed", 100⟩
  let st₂ := { st₁ with nextId := st₁.nextId + 1, jobs := st₁.jobs ++ [job] }
  let mock := generateMockAnalysis url
  let analysis : AnalysisRow := ⟨st₂.nextId, job.id, repoId, toString mock.slopScore⟩
  let st₃ :=
    { st₂ with nextId := st₂.nextId + 1, analyses := st₂.analyses ++ [analysis] }
  ({ st₃ with
      slopNotes := st₃.slopNotes ++ mock.notes.map fun nt => ⟨analysis.id, nt⟩ },
   job.id)

/-- `processUrl` of the `POST /api/analyze` route: parse the URL (its
exceptions propagate to the handler's catch), then run the transaction. -/
def processUrl (urlOk : String → Bool) (st : DBState) (url userId : String) :
    Except ParseErr (DBState × Nat) :=
  match parseGithubUrl urlOk url with
  | .error e => .error e
  | .ok (owner, name) =>
    match st.repositories.find? (fun r => r.githubUrl == url) with
    | some r => .ok (finishUrl (upsertExisting st url userId owner name) url userId r.id)
    | none => .ok (finishUrl (insertRepo st url userId owner name) url userId st.nextId)

/-- The shape of the state `finishUrl` returns: one new completed job and
one new analysis row carrying the mock score. -/
theorem finishUrl_shape (st₁ : DBState) (url userId : String) (repoId : Nat) :
    ∃ job : JobRow,
      (finishUrl st₁ url userId repoId).1.jobs = st₁.jobs ++ [job] ∧
      job.id = (finishUrl st₁ url userId repoId).2 ∧
      job.status = "completed" ∧ job.progress = 100 ∧
      ∃ a : AnalysisRow,
        (finishUrl st₁ url userId repoId).1.analyses = st₁.analyses ++ [a] ∧
        a.jobId = (finishUrl st₁ url userId repoId).2 ∧
        a.slopScore = toString (generateMockAnalysis url).slopScore := by
  refine ⟨⟨st₁.nextId, userId, repoId, "completed", 100⟩, ?_, ?_, rfl, rfl,
    ⟨st₁.nextId + 1, st₁.nextId, repoId,
      toString (generateMockAnalysis url).slopScore⟩, ?_, ?_, rfl⟩ <;>
    simp [finishUrl]

/-- C3: every job `processUrl` creates is inserted with status `'completed'`
and progress `100`, and the analysis row carrying the mock slop score is
inserted in the same synchronous call, before the job id is returned; no job
is ever created in the `'pending'` or `'processing'` state. -/
theorem processUrl_job_completed (urlOk : String → Bool) (st : DBState)
    (url userId : String) (st' : DBState) (jobId : Nat)
    (h : processUrl urlOk st url userId = .ok (st', jobId)) :
    ∃ job : JobRow,
      st'.jobs = st.jobs ++ [job] ∧
      job.id = jobId ∧ job.status = "completed" ∧ job.progress = 100 ∧
      ∃ a : AnalysisRow,
        st'.analyses = st.analyses ++ [a] ∧ a.jobId = jobId ∧
        a.slopScore = toString (generateMockAnalysis url).slopScore := by
  simp only [processUrl] at h
  split at h
  · exact absurd h (by simp)
  · rename_i owner name _
    split at h
    · rename_i r hr
      simp only [Except.ok.injEq, Prod.ext_iff] at h
      obtain ⟨h1, h2⟩ := h
      obtain ⟨job, hj, hjid, hst, hpr, a, ha, haj, has⟩ :=
        finishUrl_shape (upsertExisting st url userId owner name) url userId r.id
      refine ⟨job, ?_, ?_, hst, hpr, a, ?_, ?_, has⟩
      · rw [← h1, hj]; simp [upsertExisting]
      · rw [← h2]; exact hjid
      · rw [← h1, ha]; simp [upsertExisting]
      · rw [← h2]; exact haj
    · simp only [Except.ok.injEq, Prod.ext_iff] at h
      obtain ⟨h1, h2⟩ := h
      obtain ⟨job, hj, hjid, hst, hpr, a, ha, haj, has⟩ :=
        finishUrl_shape (insertRepo st url userId owner name) url userId st.nextId
      refine ⟨job, ?_, ?_, hst, hpr, a, ?_, ?_, has⟩
      · rw [← h1, hj]; simp [insertRepo]
      · rw [← h2]; exact hjid
      · rw [← h1, ha]; simp [insertRepo]
      · rw [← h2]; exact haj

end SlopScore

namespace SlopScore

set_option maxRecDepth 100000 in
theorem processUrl_job_completed_witness :
    ∃ job : JobRow,
      (DBState.mk 3
        [⟨0, "user1", "https://github.com/a/b", "a", "b"⟩]
        [⟨1, "user1", 0, "completed", 100⟩]
        [⟨2, 1, 0, "67"⟩]
        [⟨2, "Incomplete error handling"⟩, ⟨2, "Deep nesting in functions"⟩,
         ⟨2, "Excessive use of any type"⟩]).jobs = emptyDB.jobs ++ [job] ∧
      job.id = 1 ∧ job.status = "completed" ∧ job.progress = 100 ∧
      ∃ a : AnalysisRow,
        (DBState.mk 3
          [⟨0, "user1", "https://github.com/a/b", "a", "b"⟩]
          [⟨1, "user1", 0, "completed", 100⟩]
          [⟨2, 1, 0, "67"⟩]
          [⟨2, "Incomplete error handling"⟩, ⟨2, "Deep nesting in functions"⟩,
           ⟨2, "Excessive use of any type"⟩]).analyses = emptyDB.analyses ++ [a] ∧
        a.jobId = 1 ∧
        a.slopScore =
          toString (generateMockAnalysis "https://github.com/a/b").slopScore :=
  processUrl_job_completed (fun _ => true) emptyDB "https://github.com/a/b"
    "user1"
    (DBState.mk 3
      [⟨0, "user1", "https://github.com/a/b", "a", "b"⟩]
      [⟨1, "user1", 0, "completed", 100⟩]
      [⟨2, 1, 0, "67"⟩]
      [⟨2, "Incomplete error handling"⟩, ⟨2, "Deep nesting in functions"⟩,
       ⟨2, "Excessive use of any type"⟩])
    1 (by rfl)

end SlopScore

namespace SlopScore

/-!
## README-to-feature extraction (`src/lib/ai/readme-to-features.ts`)

The module fetches a repository README and extracts feature claims from it
with the Anthropic API.  Its deterministic parts are embedded: the URL
parsing and candidate README locations of `fetchReadme`, the Claude request
built by `extractFeaturesFromReadme`, and the code-fence extraction applied
to the model's response before `JSON.parse`.
-/

def githubDotCom : List Char := "github.com/".data

/-- One attempt of the unanchored regex `/github\.com\/([^/]+)\/([^/]+)/` at
the head of `cs`: both groups are greedy runs of non-slash characters. -/
def tryGithubAt (cs : List Char) : Option (List Char × List Char) :=
  match dropPrefixChars githubDotCom cs with
  | none => none
  | some rest =>
    let owner := rest.takeWhile (fun c => c != '/')
    match owner, rest.drop owner.length with
    | [], _ => none
    | _, '/' :: rest2 =>
      let repo := rest2.takeWhile (fun c => c != '/')
      if repo = [] then none else some (owner, repo)
    | _, _ => none

/-- `githubUrl.match(/github\.com\/([^/]+)\/([^/]+)/)`: the first position
where the pattern matches. -/
def searchGithub : List Char → Option (List Char × List Char)
  | [] => none
  | c :: cs =>
    match tryGithubAt (c :: cs) with
    | some r => some r
    | none => searchGithub cs

/-- `repo.replace(/\.git$/, '')`. -/
def stripDotGit (repo : List Char) : List Char :=
  if repo.length ≥ 4 ∧ repo.drop (repo.length - 4) = ".git".data then
    repo.take (repo.length - 4)
  else repo

/-- Owner and repository name as `fetchReadme` extracts them;
`none` models the `'Invalid GitHub URL'` throw. -/
def fetchReadmeTarget (githubUrl : String) : Option (String × String) :=
  (searchGithub githubUrl.data).map fun p =>
    (String.mk p.1, String.mk (stripDotGit p.2))

def readmeFilenames : List String :=
  ["README.md", "readme.md", "Readme.md", "README"]

/-- The raw-content URLs `fetchReadme` tries, in request order: the four
filename variations on `main`, then the same four on `master`. -/
def readmeCandidateUrls (owner repoName : String) : List String :=
  ["main", "master"].flatMap fun branch =>
    readmeFilenames.map fun f =>
      "https://raw.githubusercontent.com/" ++ owner ++ "/" ++ repoName ++
        "/" ++ branch ++ "/" ++ f

/-- The system prompt `README2FEATURES_SYSTEM_PROMPT` (braces escaped). -/
def readme2featuresSystemPrompt : String :=
  "You are a feature claim analyzer. Extract high-level, verifiable feature claims from README documentation and convert them into testable functional requirements.\n\nWHAT TO EXTRACT:\n- Core functionality that makes the project unique and useful\n- Differentiating features that distinguish this project from alternatives\n- Explicit capabilities and integrations\n- Negative claims if verifiable (\"no dependencies\", \"works offline\", \"no configuration required\")\n\nWHAT TO SKIP:\n- Marketing language (\"blazingly fast\", \"enterprise-grade\", \"production-ready\")\n- Table-stakes features (\"mobile responsive\", \"dark mode\", \"logging\")\n- Roadmap/planned features marked \"coming soon\" or \"planned\"\n- Installation instructions and setup steps\n- Performance claims without measurable thresholds\n- Sub-features and implementation details\n\nEXTRACTION RULES:\n1. Focus on high-level features only (\"user authentication\" not \"OAuth, SAML, 2FA\")\n2. For vague scope, use general requirements (\"supports multiple databases\" → \"supports at least 2 databases\")\n3. Prioritize features that answer: \"Why would someone use this project?\"\n4. Extract 5-10 core features maximum\n\nFUNCTIONAL REQUIREMENTS:\nChoose format based on README specificity:\n- Acceptance criteria: \"Given [context], when [action], then [outcome]\" (when README provides detail)\n- Simple assertion: \"[Component] exists and functions\" (when README is vague)\n\nOUTPUT FORMAT:\n```json\n\x7b\n  \"features\": [\n    \x7b\n      \"id\": \"F1\",\n      \"claim\": \"[exact quote or close paraphrase]\",\n      \"requirement\": \"[testable functional requirement]\",\n      \"verification_hint\": \"[brief guidance for automated testing]\"\n    \x7d\n  ]\n\x7d\n```\n\nBe selective. Only extract features that a verification agent could meaningfully test in a sandbox environment within 5-10 minutes. Prioritize quality over quantity."

structure ClaudeRequest where
  model : String
  maxTokens : Nat
  system : String
  userContent : String
  deriving DecidableEq, Repr

/-- The `anthropic.messages.create` call of `extractFeaturesFromReadme`. -/
def buildExtractionRequest (readmeContent : String) : ClaudeRequest :=
  { model := "claude-3-5-sonnet-20241022"
    maxTokens := 4096
    system := readme2featuresSystemPrompt
    userContent := "Extract features from this README:\n\n" ++ readmeContent }

/-- Split around the first occurrence of `pat`:
`some (before, after)` or `none` when `pat` does not occur. -/
def splitFirst (pat : List Char) (cs : List Char) :
    Option (List Char × List Char) :=
  match dropPrefixChars pat cs with
  | some rest => some ([], rest)
  | none =>
    match cs with
    | [] => none
    | c :: cs' => (splitFirst pat cs').map fun p => (c :: p.1, p.2)

def isJsWhitespace (c : Char) : Bool :=
  c == ' ' || c == '\n' || c == '\t' || c == '\r'

/-- JavaScript `.trim()` (restricted to the ASCII whitespace that occurs in
the strings at hand). -/
def trimChars (l : List Char) : List Char :=
  ((l.dropWhile isJsWhitespace).reverse.dropWhile isJsWhitespace).reverse

/-- The content between the first occurrence of `opening` and the next
`` ``` `` fence, or `none` when the pair does not occur. -/
def fenceInner (opening : List Char) (t : List Char) : Option (List Char) :=
  match splitFirst opening t with
  | none => none
  | some (_, rest) =>
    match splitFirst "```".data rest with
    | none => none
    | some (inner, _) => some inner

/-- The string `extractFeaturesFromReadme` hands to `JSON.parse`: the capture
of ``/```json\s*([\s\S]*?)\s*```/`` (the trimmed fence content), else of the
same pattern without `json`, else the whole response; an empty capture is
falsy in `jsonMatch[1] || responseText`, falling back to the whole response;
`.trim()` is applied last. -/
def jsonPayload (responseText : String) : String :=
  let t := responseText.data
  let viaFence : Option (List Char) :=
    match fenceInner "```json".data t with
    | some inner => some inner
    | none => fenceInner "```".data t
  match viaFence with
  | some inner =>
    let g := trimChars inner
    if g = [] then String.mk (trimChars t) else String.mk g
  | none => String.mk (trimChars t)

set_option maxRecDepth 100000 in
/-- C7 counterexample: README-to-feature claim extraction via an LLM *is*
implemented in the provided source (`src/lib/ai/readme-to-features.ts`): the
module resolves the README location of a GitHub URL, builds a Claude request
from the README with the feature-extraction system prompt, and extracts the
JSON feature list from the model's fenced response. -/
theorem readme_llm_extraction_implemented :
    fetchReadmeTarget "https://github.com/vercel/next.js" =
        some ("vercel", "next.js") ∧
      readmeCandidateUrls "vercel" "next.js" =
        ["https://raw.githubusercontent.com/vercel/next.js/main/README.md",
         "https://raw.githubusercontent.com/vercel/next.js/main/readme.md",
         "https://raw.githubusercontent.com/vercel/next.js/main/Readme.md",
         "https://raw.githubusercontent.com/vercel/next.js/main/README",
         "https://raw.githubusercontent.com/vercel/next.js/master/README.md",
         "https://raw.githubusercontent.com/vercel/next.js/master/readme.md",
         "https://raw.githubusercontent.com/vercel/next.js/master/Readme.md",
         "https://raw.githubusercontent.com/vercel/next.js/master/README"] ∧
      (buildExtractionRequest "# My project").model =
        "claude-3-5-sonnet-20241022" ∧
      (buildExtractionRequest "# My project").maxTokens = 4096 ∧
      (buildExtractionRequest "# My project").system.data.take 32 =
        "You are a feature claim analyzer".data ∧
      (buildExtractionRequest "# My project").userContent =
        "Extract features from this README:\n\n# My project" ∧
      jsonPayload "Here is the result:\n```json\n\x7b \"features\": [] \x7d\n```\n" =
        "\x7b \"features\": [] \x7d" :=
  ⟨rfl, rfl, rfl, rfl, rfl, rfl, rfl⟩

set_option maxRecDepth 100000 in
/-- C7(amended): the delivered `/api/analyze` flow never invokes the
LLM pipeline: the analysis row it stores is derived solely from the string
hash of the URL. -/
theorem processUrl_analysis_from_hash (urlOk : String → Bool) (st : DBState)
    (url userId : String) (st' : DBState) (jobId : Nat)
    (h : processUrl urlOk st url userId = .ok (st', jobId)) :
    ∃ a : AnalysisRow,
      st'.analyses = st.analyses ++ [a] ∧
      a.slopScore = toString (20 + hashToNumber url % 71) := by
  simp only [processUrl] at h
  split at h
  · exact absurd h (by simp)
  · rename_i owner name _
    split at h
    · rename_i r hr
      simp only [Except.ok.injEq, Prod.ext_iff] at h
      obtain ⟨h1, h2⟩ := h
      obtain ⟨job, hj, hjid, hst, hpr, a, ha, haj, has⟩ :=
        finishUrl_shape (upsertExisting st url userId owner name) url userId r.id
      refine ⟨a, ?_, ?_⟩
      · rw [← h1, ha]; simp [upsertExisting]
      · rw [has]; simp [generateMockAnalysis, hashToScore]
    · simp only [Except.ok.injEq, Prod.ext_iff] at h
      obtain ⟨h1, h2⟩ := h
      obtain ⟨job, hj, hjid, hst, hpr, a, ha, haj, has⟩ :=
        finishUrl_shape (insertRepo st url userId owner name) url userId st.nextId
      refine ⟨a, ?_, ?_⟩
      · rw [← h1, ha]; simp [insertRepo]
      · rw [has]; simp [generateMockAnalysis, hashToScore]

set_option maxRecDepth 100000 in
theorem processUrl_analysis_from_hash_witness :
    ∃ a : AnalysisRow,
      (DBState.mk 3
        [⟨0, "user1", "https://github.com/a/b", "a", "b"⟩]
        [⟨1, "user1", 0, "completed", 100⟩]
        [⟨2, 1, 0, "67"⟩]
        [⟨2, "Incomplete error handling"⟩, ⟨2, "Deep nesting in functions"⟩,
         ⟨2, "Excessive use of any type"⟩]).analyses = emptyDB.analyses ++ [a] ∧
      a.slopScore =
        toString (20 + hashToNumber "https://github.com/a/b" % 71) :=
  processUrl_analysis_from_hash (fun _ => true) emptyDB
    "https://github.com/a/b" "user1"
    (DBState.mk 3
      [⟨0, "user1", "https://github.com/a/b", "a", "b"⟩]
      [⟨1, "user1", 0, "completed", 100⟩]
      [⟨2, 1, 0, "67"⟩]
      [⟨2, "Incomplete error handling"⟩, ⟨2, "Deep nesting in functions"⟩,
       ⟨2, "Excessive use of any type"⟩])
    1 (by rfl)

end SlopScore

namespace SlopScore

theorem parseGithubUrl_extract_error_unreachable_witness :
    parseGithubUrl (fun _ => true) "https://github.com/a/b" ≠
        .error .extractFail ∧
      ((∃ p, parseGithubUrl (fun _ => true) "https://github.com/a/b" = .ok p) ↔
        githubUrlSchemaAccepts (fun _ => true) "https://github.com/a/b" =
          true) :=
  parseGithubUrl_extract_error_unreachable (fun _ => true)
    "https://github.com/a/b"

end SlopScore
